import Mathlib

/-!
# Verification of the mockio stream primitives

Shallow embedding of `testing/mockio/mockio.go`: an asynchronous sink
stream (`Writable`), a synchronous handshake stream (`Readable`) and the
shared non-blocking rendezvous signal (`nonBlockingSignal`).

Go byte buffers are modelled as `List Nat` (each element a byte value),
Go errors as `Option GoError` (`none` = Go `nil`, `some .eof` = `io.EOF`).
Purely sequential behaviour is embedded as pure functions on the buffer;
the concurrency claims use explicit small-step interleaving relations in
which every mutex-protected region of the Go code is one atomic step.
-/

/-- The only error value the mockio code ever produces or inspects:
Go's `io.EOF`. -/
inductive GoError where
  | eof
deriving DecidableEq, Repr

/-- Go `bytes.Buffer.ReadString(delim)` scan: reads bytes from the front
of the buffer until (and including) the first occurrence of `delim`.
Returns (bytes read, bytes remaining, whether the delimiter was found). -/
def readStringAux (delim : Nat) : List Nat → List Nat × List Nat × Bool
  | [] => ([], [], false)
  | b :: rest =>
    if b = delim then ([b], rest, true)
    else
      let r := readStringAux delim rest
      (b :: r.1, r.2.1, r.2.2)

/-- Go `bytes.Buffer.ReadString(delim)`: like `readStringAux`, but the
found/not-found flag is rendered as the Go error (`nil` when the
delimiter was found, `io.EOF` when the buffer ran out first). -/
def bufferReadString (delim : Nat) (buf : List Nat) :
    List Nat × List Nat × Option GoError :=
  let r := readStringAux delim buf
  (r.1, r.2.1, if r.2.2 then none else some .eof)

/-- Go `bytes.Buffer.Read(p)`: on an empty buffer returns `(0, nil)` when
`len(p) = 0` and `(0, io.EOF)` otherwise; on a non-empty buffer copies
`min(len(p), buffered)` bytes from the front. Returns
(bytes read, bytes remaining, error). -/
def bufferRead (k : Nat) (buf : List Nat) :
    List Nat × List Nat × Option GoError :=
  if buf.isEmpty then
    if k = 0 then ([], [], none) else ([], [], some .eof)
  else (buf.take k, buf.drop k, none)

/-- Go `bytes.Buffer.Write(out)`: appends `out`, returns
`(len(out), nil)`. The new buffer contents is the second component. -/
def bufferWrite (out : List Nat) (buf : List Nat) :
    (Nat × Option GoError) × List Nat :=
  ((out.length, none), buf ++ out)

/-- `Writable.Write` as it affects the buffer: the append happens under
the mutex; the subsequent `nonBlockingSignal(w.signal)` has no effect on
the buffer and its result is ignored, so the sequential behaviour is
exactly `bufferWrite`. -/
def writableWrite (out : List Nat) (buf : List Nat) :
    (Nat × Option GoError) × List Nat :=
  bufferWrite out buf

/-- A sequence of completed `Writable.Write` calls, in completion order. -/
def writableWriteAll (ws : List (List Nat)) (buf : List Nat) : List Nat :=
  ws.foldl (fun b w => (writableWrite w b).2) buf

/-- `Writable.ReadNow` run without interference: snapshots the whole
buffer contents and leaves the buffer empty. Returns
(returned string, buffer afterwards). -/
def writableReadNow (buf : List Nat) : List Nat × List Nat :=
  (buf, [])

/-- The wait loop of `Writable.ReadUntil`: `val` is the data accumulated
so far; each element of `arrivals` is the batch of new bytes found in the
buffer on one `signal` wake (the previous scan drained the buffer, so
each wake scans exactly the freshly written bytes); when `arrivals` is
exhausted the `timeout` channel fires and the loop returns `val` with
`io.EOF`. Returns (value, buffer afterwards, error). This models only
runs in which every pre-deadline write was observed on a wake (its
timeout case has an empty buffer): exact when the delimiter is already
buffered (the loop is never entered) and when no write lands during the
wait (`arrivals = []`); runs where a write's `nonBlockingSignal` fires
while the reader is not parked in the `select` — so the signal is
dropped and the bytes sit in the buffer unscanned at the deadline — are
modelled by `RUStep` below. -/
def readUntilLoop (delim : Nat) (val : List Nat) :
    List (List Nat) → List Nat × List Nat × Option GoError
  | [] => (val, [], some .eof)
  | a :: rest =>
    let r := readStringAux delim a
    if r.2.2 then (val ++ r.1, r.2.1, none)
    else readUntilLoop delim (val ++ r.1) rest

/-- `Writable.ReadUntil(delim, timeout)`: first scans the current buffer
under the mutex; if the delimiter is found it returns immediately with a
`nil` error, otherwise it enters the wake loop with the drained bytes as
the initial accumulator. `arrivals` lists the write batches observed on
successive wakes before the timeout fires. -/
def readUntilRun (delim : Nat) (buf : List Nat) (arrivals : List (List Nat)) :
    List Nat × List Nat × Option GoError :=
  let r := readStringAux delim buf
  if r.2.2 then (r.1, r.2.1, none)
  else readUntilLoop delim r.1 arrivals

/-! ## Basic scan lemmas -/

theorem readStringAux_not_mem {delim : Nat} :
    ∀ {l : List Nat}, delim ∉ l → readStringAux delim l = (l, [], false) := by
  intro l h
  induction l with
  | nil => rfl
  | cons b rest ih =>
    have hb : b ≠ delim := fun hb => h (hb ▸ List.mem_cons_self b rest)
    have hr : delim ∉ rest := fun hr => h (List.mem_cons_of_mem _ hr)
    simp [readStringAux, hb, ih hr]

theorem readStringAux_mem {delim : Nat} :
    ∀ {l : List Nat}, delim ∈ l →
      ∃ p q, l = p ++ delim :: q ∧ delim ∉ p ∧
        readStringAux delim l = (p ++ [delim], q, true) := by
  intro l h
  induction l with
  | nil => cases h
  | cons b rest ih =>
    by_cases hb : b = delim
    · subst hb
      exact ⟨[], rest, rfl, by simp, by simp [readStringAux]⟩
    · have hm : delim ∈ rest := by
        cases h with
        | head => exact absurd rfl hb
        | tail _ h => exact h
      obtain ⟨p, q, hl, hp, hr⟩ := ih hm
      refine ⟨b :: p, q, by simp [hl], ?_, ?_⟩
      · intro hc
        cases hc with
        | head => exact hb rfl
        | tail _ hc => exact hp hc
      · simp [readStringAux, hb, hr]

theorem writableWriteAll_append (ws : List (List Nat)) :
    ∀ buf, writableWriteAll ws buf = buf ++ ws.flatten := by
  induction ws with
  | nil => intro buf; simp [writableWriteAll]
  | cons w rest ih =>
    intro buf
    simp [writableWriteAll, writableWrite, bufferWrite] at *
    simp [ih (buf ++ w), List.append_assoc]

/-! ## Claim theorems for the sink stream -/

/-- C2: for every finite sequence of completed sink-stream writes with
contents `b1, ..., bn` (in write-completion order), a `ReadNow` issued
after all writes returns exactly the concatenation `b1 ++ ... ++ bn`,
and a second immediate `ReadNow` with no intervening writes returns the
empty string. -/
theorem readNow_after_writes_returns_concat (ws : List (List Nat)) :
    (writableReadNow (writableWriteAll ws [])).1 = ws.flatten ∧
    (writableReadNow (writableReadNow (writableWriteAll ws [])).2).1 = [] := by
  constructor
  · simp [writableReadNow, writableWriteAll_append]
  · simp [writableReadNow]

/-- C3: whenever the sink-stream buffer contains the delimiter,
`ReadUntil` returns — with success status (`nil` error) and regardless of
later arrivals — the buffer prefix up to and including the FIRST
occurrence of the delimiter (the returned value ends with the delimiter
and contains it nowhere earlier), leaving exactly the bytes after that
occurrence in the buffer; concretely, after writing "te" then "st",
`ReadUntil('s', timeout)` returns "tes" with success and a following
`ReadNow` returns "t". -/
theorem readUntil_delim_in_buffer (delim : Nat) (buf : List Nat)
    (arrivals : List (List Nat)) (h : delim ∈ buf) :
    ((readUntilRun delim buf arrivals).2.2 = none ∧
     (readUntilRun delim buf arrivals).1 ++ (readUntilRun delim buf arrivals).2.1 = buf ∧
     (readUntilRun delim buf arrivals).1.getLast? = some delim ∧
     delim ∉ (readUntilRun delim buf arrivals).1.dropLast) ∧
    (readUntilRun 115 (writableWriteAll [[116, 101], [115, 116]] []) []
       = ([116, 101, 115], [116], none) ∧
     (writableReadNow (readUntilRun 115 (writableWriteAll [[116, 101], [115, 116]] []) []).2.1).1
       = [116]) := by
  constructor
  · obtain ⟨p, q, hl, hp, hr⟩ := readStringAux_mem h
    simp only [readUntilRun, hr]
    refine ⟨rfl, by simp [hl], ?_, ?_⟩
    · simp [List.getLast?_concat]
    · simp [List.dropLast_concat, hp]
  · constructor
    · rfl
    · rfl

/-- C4: when `ReadUntil`'s timeout expires without the delimiter ever
being found (no arrival before the deadline), it returns the partial
data accumulated so far together with the `io.EOF` status, which is
distinct from the `nil` success status; concretely, after writing "ab"
with no further writes, `ReadUntil('x', timeout)` returns "ab" with the
timeout status. -/
theorem readUntil_timeout_partial (delim : Nat) (buf : List Nat)
    (h : delim ∉ buf) :
    readUntilRun delim buf [] = (buf, [], some .eof) ∧
    (some GoError.eof ≠ (none : Option GoError)) ∧
    readUntilRun 120 (writableWriteAll [[97, 98]] []) [] = ([97, 98], [], some .eof) := by
  refine ⟨?_, by simp, rfl⟩
  simp [readUntilRun, readStringAux_not_mem h, readUntilLoop]

/-- Witness for C3 at delim = 115, buf = [116, 101, 115, 116]. -/
theorem readUntil_delim_in_buffer_witness :
    (115 ∈ [116, 101, 115, 116]) ∧
    (((readUntilRun 115 [116, 101, 115, 116] []).2.2 = none ∧
      (readUntilRun 115 [116, 101, 115, 116] []).1 ++
        (readUntilRun 115 [116, 101, 115, 116] []).2.1 = [116, 101, 115, 116] ∧
      (readUntilRun 115 [116, 101, 115, 116] []).1.getLast? = some 115 ∧
      115 ∉ (readUntilRun 115 [116, 101, 115, 116] []).1.dropLast) ∧
     (readUntilRun 115 (writableWriteAll [[116, 101], [115, 116]] []) []
        = ([116, 101, 115], [116], none) ∧
      (writableReadNow (readUntilRun 115 (writableWriteAll [[116, 101], [115, 116]] []) []).2.1).1
        = [116])) :=
  ⟨by decide, readUntil_delim_in_buffer 115 [116, 101, 115, 116] [] (by decide)⟩

/-- Witness for C4 at delim = 120, buf = [97, 98]. -/
theorem readUntil_timeout_partial_witness :
    (120 ∉ [97, 98]) ∧
    (readUntilRun 120 [97, 98] [] = ([97, 98], [], some .eof) ∧
     (some GoError.eof ≠ (none : Option GoError)) ∧
     readUntilRun 120 (writableWriteAll [[97, 98]] []) [] = ([97, 98], [], some .eof)) :=
  ⟨by decide, readUntil_timeout_partial 120 [97, 98] (by decide)⟩

/-! ## The rendezvous signal channel -/

/-- A Go channel in the shape mockio uses it: `cap` is the buffer
capacity fixed at `make`, `queued` the number of buffered-but-undelivered
notifications, `receivers` the number of goroutines currently parked in a
receive on the channel. -/
structure GoChan where
  cap : Nat
  queued : Nat
  receivers : Nat
deriving DecidableEq, Repr

/-- `nonBlockingSignal(ch)`, i.e. Go
`select { case ch <- nil: return true; default: return false }`:
the send succeeds immediately iff a receiver is already parked
(rendezvous hand-off, waking that receiver) or buffer space is free
(queueing the notification); otherwise the `default` branch returns
`false` at once. It never blocks. Returns
(whether the send succeeded, channel state afterwards). -/
def nonBlockingSignal (ch : GoChan) : Bool × GoChan :=
  if 0 < ch.receivers then (true, { ch with receivers := ch.receivers - 1 })
  else if ch.queued < ch.cap then (true, { ch with queued := ch.queued + 1 })
  else (false, ch)

/-- The channels mockio creates (`make(chan *interface{})` in both
`Stdout` and `Stdin`) are unbuffered: capacity 0, nothing queued,
with `r` receivers currently parked. -/
def mkMockioChan (r : Nat) : GoChan :=
  { cap := 0, queued := 0, receivers := r }

/-- C9: on the unbuffered channels mockio uses, `nonBlockingSignal`
(a total function, hence never blocking) returns `true` exactly when a
receiver was parked on the channel at the instant of the call, in which
case that receiver is woken (the parked-receiver count drops by one);
when no receiver was waiting it returns `false` with the channel state
entirely unchanged — the notification is discarded, never queued, and
has no later effect. -/
theorem nonBlockingSignal_rendezvous (ch : GoChan) (h : ch.cap = 0) :
    ((nonBlockingSignal ch).1 = true ↔ 0 < ch.receivers) ∧
    ((nonBlockingSignal ch).1 = true →
      (nonBlockingSignal ch).2 = { ch with receivers := ch.receivers - 1 }) ∧
    ((nonBlockingSignal ch).1 = false → (nonBlockingSignal ch).2 = ch) ∧
    (nonBlockingSignal ch).2.queued = ch.queued := by
  by_cases hr : 0 < ch.receivers
  · simp [nonBlockingSignal, hr]
  · simp [nonBlockingSignal, hr, h]

/-- Witness for C9 at the channel `mkMockioChan 1` (capacity 0, one
parked receiver): the signal reports delivery and wakes the receiver,
leaving the queue empty; and at `mkMockioChan 0` (no receiver): the
signal reports `false` and leaves the channel untouched. -/
theorem nonBlockingSignal_rendezvous_witness :
    ((mkMockioChan 1).cap = 0 ∧ 0 < (mkMockioChan 1).receivers ∧
     (nonBlockingSignal (mkMockioChan 1)).1 = true ∧
     (nonBlockingSignal (mkMockioChan 1)).2
       = { mkMockioChan 1 with receivers := (mkMockioChan 1).receivers - 1 } ∧
     (nonBlockingSignal (mkMockioChan 1)).2.queued = (mkMockioChan 1).queued) ∧
    ((mkMockioChan 0).cap = 0 ∧ (nonBlockingSignal (mkMockioChan 0)).1 = false ∧
     (nonBlockingSignal (mkMockioChan 0)).2 = mkMockioChan 0) := by
  have h1 := nonBlockingSignal_rendezvous (mkMockioChan 1) rfl
  have ht : (nonBlockingSignal (mkMockioChan 1)).1 = true := h1.1.mpr (by decide)
  have h0 := nonBlockingSignal_rendezvous (mkMockioChan 0) rfl
  have hf : (nonBlockingSignal (mkMockioChan 0)).1 = false := by decide
  exact ⟨⟨rfl, by decide, ht, h1.2.1 ht, h1.2.2.2⟩, ⟨rfl, hf, h0.2.2.1 hf⟩⟩

/-! ## The handshake stream (`Readable`), sequential operations -/

/-- A Go string, as the sequence of its bytes (`[]byte(s)`). -/
structure GoString where
  data : List Nat
deriving DecidableEq, Repr

/-- Go `bytes.Buffer.WriteString(s)`: appends the bytes of `s`, returns
`(len(s), nil)`. The new buffer contents is the second component. -/
def bufferWriteString (s : GoString) (buf : List Nat) :
    (Nat × Option GoError) × List Nat :=
  ((s.data.length, none), buf ++ s.data)

/-- `Readable.signalWrite`: fires `nonBlockingSignal(r.available)`; when
that returns `true` (a reader was parked) the writer then blocks on
`<-r.consumed` until the reader consumes. The `Bool` component records
whether the writer enters that blocking wait. -/
def signalWrite (avail : GoChan) : Bool × GoChan :=
  nonBlockingSignal avail

/-- `Readable.Write(out)`: under the mutex appends `out` to the buffer
via `bytes.Buffer.Write`, then (after unlocking) runs `signalWrite`.
Returns ((count, error), new buffer) paired with the `signalWrite`
outcome. -/
def readableWriteFull (out : List Nat) (buf : List Nat) (avail : GoChan) :
    ((Nat × Option GoError) × List Nat) × (Bool × GoChan) :=
  (bufferWrite out buf, signalWrite avail)

/-- `Readable.WriteString(s)`: under the mutex appends the bytes of `s`
via `bytes.Buffer.WriteString`, then (after unlocking) runs
`signalWrite`. Same return shape as `readableWriteFull`. -/
def readableWriteStringFull (s : GoString) (buf : List Nat) (avail : GoChan) :
    ((Nat × Option GoError) × List Nat) × (Bool × GoChan) :=
  (bufferWriteString s buf, signalWrite avail)

/-- The tail of `Readable.Read` once the (possible) wait on `available`
is over: `n, e = buffer.Read(out)` under the mutex, then
`if e == io.EOF { e = nil }`. `buf` is the buffer at the moment of the
inner read, `k` the caller's buffer size. Returns
(bytes returned, buffer remaining, error returned to the caller). -/
def readableRead (buf : List Nat) (k : Nat) : List Nat × List Nat × Option GoError :=
  let r := bufferRead k buf
  (r.1, r.2.1, if r.2.2 = some .eof then none else r.2.2)

/-- C10: for every string `s`, the handshake stream's `WriteString(s)`
is observationally equivalent to `Write` applied to the bytes of `s`:
from any buffer and any channel state, both append the same bytes,
return the same count and (nil) error, and produce the identical
signal-then-wait-for-consumption outcome. -/
theorem writeString_equiv_write (s : GoString) (buf : List Nat) (avail : GoChan) :
    readableWriteStringFull s buf avail = readableWriteFull s.data buf avail := rfl

/-- C8: `Readable.Read` never reports end-of-stream: for every buffer
state and caller buffer size, the error returned is `nil`; in the
no-data case, where the underlying `bytes.Buffer.Read` signals `io.EOF`,
the caller sees zero bytes and a `nil` error instead. -/
theorem readableRead_never_eof (buf : List Nat) (k : Nat) :
    (readableRead buf k).2.2 = none ∧
    ((bufferRead k buf).2.2 = some .eof → (readableRead buf k).1 = []) := by
  unfold readableRead bufferRead
  by_cases hb : buf.isEmpty <;> by_cases hk : k = 0 <;> simp [hb, hk]

/-- Witness for C8 at `buf = []`, `k = 1`: the underlying buffer read
does signal `io.EOF` there, and the caller sees zero bytes with a `nil`
error. -/
theorem readableRead_never_eof_witness :
    (bufferRead 1 []).2.2 = some .eof ∧
    (readableRead [] 1).2.2 = none ∧ (readableRead [] 1).1 = [] :=
  ⟨by decide, (readableRead_never_eof [] 1).1,
   (readableRead_never_eof [] 1).2 (by decide)⟩

/-- C7: a handshake-stream `Read` with a caller buffer of size `k`, when
the stream buffer holds `m > 0` bytes, returns `min(k, m)` bytes taken
from the front of the buffer (with nil error) and leaves the remaining
bytes for subsequent reads; concretely, writing "1234" then "5678"
before any read, followed by `read(8)`, returns "12345678" in one call,
while `read(4)` returns only the 4 requested bytes and leaves "5678". -/
theorem readableRead_min_front (buf : List Nat) (k : Nat) (h : buf ≠ []) :
    (readableRead buf k = (buf.take k, buf.drop k, none) ∧
     (buf.take k).length = min k buf.length ∧
     buf.take k ++ buf.drop k = buf) ∧
    (readableRead
        ((readableWriteFull [53, 54, 55, 56]
            ((readableWriteFull [49, 50, 51, 52] [] (mkMockioChan 0)).1.2)
            (mkMockioChan 0)).1.2) 8
       = ([49, 50, 51, 52, 53, 54, 55, 56], [], none) ∧
     readableRead
        ((readableWriteFull [53, 54, 55, 56]
            ((readableWriteFull [49, 50, 51, 52] [] (mkMockioChan 0)).1.2)
            (mkMockioChan 0)).1.2) 4
       = ([49, 50, 51, 52], [53, 54, 55, 56], none)) := by
  refine ⟨⟨?_, ?_, ?_⟩, by constructor <;> rfl⟩
  · simp [readableRead, bufferRead, h]
  · simp [List.length_take]
  · exact List.take_append_drop k buf

/-- Witness for C7 at `buf = [1, 2, 3]`, `k = 2`. -/
theorem readableRead_min_front_witness :
    (([1, 2, 3] : List Nat) ≠ []) ∧
    ((readableRead [1, 2, 3] 2
        = (([1, 2, 3] : List Nat).take 2, ([1, 2, 3] : List Nat).drop 2, none) ∧
      (([1, 2, 3] : List Nat).take 2).length = min 2 ([1, 2, 3] : List Nat).length ∧
      ([1, 2, 3] : List Nat).take 2 ++ ([1, 2, 3] : List Nat).drop 2 = [1, 2, 3]) ∧
     (readableRead
        ((readableWriteFull [53, 54, 55, 56]
            ((readableWriteFull [49, 50, 51, 52] [] (mkMockioChan 0)).1.2)
            (mkMockioChan 0)).1.2) 8
       = ([49, 50, 51, 52, 53, 54, 55, 56], [], none) ∧
      readableRead
        ((readableWriteFull [53, 54, 55, 56]
            ((readableWriteFull [49, 50, 51, 52] [] (mkMockioChan 0)).1.2)
            (mkMockioChan 0)).1.2) 4
       = ([49, 50, 51, 52], [53, 54, 55, 56], none))) :=
  ⟨by decide, readableRead_min_front [1, 2, 3] 2 (by decide)⟩

/-! ## Interleaving model: one `Readable.Write` racing one `Readable.Read`

Every mutex-protected region of the Go code is one atomic step; channel
rendezvous on the unbuffered `available`/`consumed` channels are joint
steps of the two threads, mirroring `nonBlockingSignal`: a send finds a
parked receiver or returns false at once. -/

/-- Writer program counter through `Readable.Write`/`WriteString`:
about to append under the mutex; about to run
`nonBlockingSignal(available)`; blocked in `<-r.consumed`; returned. -/
inductive WPC where
  | wAppend | wSig | wWaitC | wDone
deriving DecidableEq, Repr

/-- Reader program counter through `Readable.Read`: about to check
`buffer.Len()` under the mutex; parked in `<-r.available`; about to read
from the buffer under the mutex; about to run
`nonBlockingSignal(consumed)`; returned. -/
inductive RPC where
  | rCheck | rWaitA | rRead | rSigC | rDone
deriving DecidableEq, Repr

/-- A configuration of one writer `Write(out)` interleaved with one
reader `Read` holding a buffer of size `k`. `got` is what the reader's
inner buffer read returned; the ghost flag `handoff` records that the
writer's `nonBlockingSignal(available)` succeeded (it woke the parked
reader); the ghost flag `didRead` records that the reader has performed
its buffer read. -/
structure HSConfig where
  wpc : WPC
  rpc : RPC
  buf : List Nat
  got : List Nat
  handoff : Bool
  didRead : Bool
deriving DecidableEq, Repr

/-- Both calls at their entry points, nothing read yet, buffer `buf0`. -/
def HSConfig.init (buf0 : List Nat) : HSConfig :=
  ⟨.wAppend, .rCheck, buf0, [], false, false⟩

/-- One interleaving step. `sigHit`/`sigMiss` are the two outcomes of
the writer's `nonBlockingSignal(available)` (a parked receiver exists
exactly when the reader sits in `<-r.available`); `consHit`/`consMiss`
are the outcomes of the reader's `nonBlockingSignal(consumed)`. -/
inductive HSStep (out : List Nat) (k : Nat) : HSConfig → HSConfig → Prop
  | append (c : HSConfig) : c.wpc = .wAppend →
      HSStep out k c { c with wpc := .wSig, buf := c.buf ++ out }
  | sigHit (c : HSConfig) : c.wpc = .wSig → c.rpc = .rWaitA →
      HSStep out k c { c with wpc := .wWaitC, rpc := .rRead, handoff := true }
  | sigMiss (c : HSConfig) : c.wpc = .wSig → c.rpc ≠ .rWaitA →
      HSStep out k c { c with wpc := .wDone }
  | checkNonempty (c : HSConfig) : c.rpc = .rCheck → c.buf ≠ [] →
      HSStep out k c { c with rpc := .rRead }
  | checkEmpty (c : HSConfig) : c.rpc = .rCheck → c.buf = [] →
      HSStep out k c { c with rpc := .rWaitA }
  | bufRead (c : HSConfig) : c.rpc = .rRead →
      HSStep out k c { c with rpc := .rSigC, got := (readableRead c.buf k).1, buf := (readableRead c.buf k).2.1, didRead := true }
  | consHit (c : HSConfig) : c.rpc = .rSigC → c.wpc = .wWaitC →
      HSStep out k c { c with rpc := .rDone, wpc := .wDone }
  | consMiss (c : HSConfig) : c.rpc = .rSigC → c.wpc ≠ .wWaitC →
      HSStep out k c { c with rpc := .rDone }

/-- The inductive invariant behind C1: a reader past its buffer read has
`didRead` set, and once the writer's signal hand-off succeeded the
writer is either still blocked on `consumed` or done with the read
already performed. -/
def HSInv (c : HSConfig) : Prop :=
  ((c.rpc = .rSigC ∨ c.rpc = .rDone) → c.didRead = true) ∧
  (c.handoff = true → c.wpc = .wWaitC ∨ (c.wpc = .wDone ∧ c.didRead = true))

theorem hsInv_init (buf0 : List Nat) : HSInv (HSConfig.init buf0) := by
  constructor <;> simp [HSConfig.init]

theorem hsInv_step {out : List Nat} {k : Nat} {c c' : HSConfig}
    (hstep : HSStep out k c c') (h : HSInv c) : HSInv c' := by
  obtain ⟨h1, h2⟩ := h
  cases hstep with
  | append hw => exact ⟨h1, by simp_all⟩
  | sigHit hw hr => exact ⟨by simp_all, by simp⟩
  | sigMiss hw hr => exact ⟨h1, by simp_all⟩
  | checkNonempty hr hb => exact ⟨by simp_all, by simp_all⟩
  | checkEmpty hr hb => exact ⟨by simp_all, by simp_all⟩
  | bufRead hr =>
    refine ⟨by simp, ?_⟩
    intro hh
    rcases h2 hh with h' | h'
    · exact Or.inl (by simp [h'])
    · exact Or.inr (by simp [h'.1])
  | consHit hr hw => exact ⟨by simp_all, by simp_all⟩
  | consMiss hr hw => exact ⟨by simp_all, by simp_all⟩

theorem hsInv_reach {out : List Nat} {k : Nat} {buf0 : List Nat} {c : HSConfig}
    (h : Relation.ReflTransGen (HSStep out k) (HSConfig.init buf0) c) :
    HSInv c := by
  induction h with
  | refl => exact hsInv_init buf0
  | tail _ hstep ih => exact hsInv_step hstep ih

/-- C1: (a) in every interleaved execution of one `Readable` write with
one read, if the write's `nonBlockingSignal(available)` woke a reader
that was already blocked in `Read` (`handoff`), then whenever the write
has returned (`wpc = wDone`) the reader has already performed its buffer
read (`didRead`) — the read necessarily happened after the hand-off and
hence after the write's append; (b) a write whose signal found no
waiting reader completes in a single step, leaving the buffer — of any
size — and the reader untouched: it returns immediately without
blocking. -/
theorem write_blocks_until_read :
    (∀ (out : List Nat) (k : Nat) (buf0 : List Nat) (c : HSConfig),
        Relation.ReflTransGen (HSStep out k) (HSConfig.init buf0) c →
        c.handoff = true → c.wpc = .wDone → c.didRead = true) ∧
    (∀ (out : List Nat) (k : Nat) (c : HSConfig),
        c.wpc = .wSig → c.rpc ≠ .rWaitA →
        HSStep out k c { c with wpc := .wDone }) := by
  constructor
  · intro out k buf0 c hreach hh hw
    rcases (hsInv_reach hreach).2 hh with h' | h'
    · rw [hw] at h'; cases h'
    · exact h'.2
  · intro out k c hw hr
    exact HSStep.sigMiss c hw hr

/-- Witness for C1: (a) the five-step schedule park-reader, append,
signal-hit, buffer-read, consumed-hit for `Write([1])` against `Read`
with `k = 1` reaches a configuration with `handoff` and `wpc = wDone`,
where the theorem yields `didRead`; (b) a writer at its signal point
with the reader still at its length check (buffer [7] non-empty)
completes at once. -/
theorem write_blocks_until_read_witness :
    (Relation.ReflTransGen (HSStep [1] 1) (HSConfig.init [])
        ⟨.wDone, .rDone, [], [1], true, true⟩ ∧
      (⟨.wDone, .rDone, [], [1], true, true⟩ : HSConfig).didRead = true) ∧
    HSStep [1] 1 ⟨.wSig, .rCheck, [7], [], false, false⟩
      { (⟨.wSig, .rCheck, [7], [], false, false⟩ : HSConfig) with wpc := .wDone } := by
  have h1 : HSStep [1] 1 (HSConfig.init []) ⟨.wAppend, .rWaitA, [], [], false, false⟩ :=
    HSStep.checkEmpty _ rfl rfl
  have h2 : HSStep [1] 1 ⟨.wAppend, .rWaitA, [], [], false, false⟩
      ⟨.wSig, .rWaitA, [1], [], false, false⟩ :=
    HSStep.append _ rfl
  have h3 : HSStep [1] 1 ⟨.wSig, .rWaitA, [1], [], false, false⟩
      ⟨.wWaitC, .rRead, [1], [], true, false⟩ :=
    HSStep.sigHit _ rfl rfl
  have h4 : HSStep [1] 1 ⟨.wWaitC, .rRead, [1], [], true, false⟩
      ⟨.wWaitC, .rSigC, [], [1], true, true⟩ :=
    HSStep.bufRead _ rfl
  have h5 : HSStep [1] 1 ⟨.wWaitC, .rSigC, [], [1], true, true⟩
      ⟨.wDone, .rDone, [], [1], true, true⟩ :=
    HSStep.consHit _ rfl rfl
  have htrace : Relation.ReflTransGen (HSStep [1] 1) (HSConfig.init [])
      ⟨.wDone, .rDone, [], [1], true, true⟩ :=
    Relation.ReflTransGen.tail
      (Relation.ReflTransGen.tail
        (Relation.ReflTransGen.tail
          (Relation.ReflTransGen.tail
            (Relation.ReflTransGen.tail Relation.ReflTransGen.refl h1) h2) h3) h4) h5
  refine ⟨⟨htrace, ?_⟩, ?_⟩
  · exact write_blocks_until_read.1 [1] 1 [] _ htrace rfl rfl
  · exact write_blocks_until_read.2 [1] 1 _ rfl (by decide)

/-! ## Interleaving model: `Writable.ReadNow` racing `Writable.Write`

In the source, `ReadNow` snapshots `buffer.String()` under the mutex,
releases the mutex, and only THEN executes `w.buffer = bytes.Buffer{}`.
The reset is therefore a separate, unlocked step, and a concurrent
locked `Write` may land between the snapshot and the reset. -/

/-- Program counter of `Writable.ReadNow`: about to snapshot
`buffer.String()` under the mutex; past the unlock, about to execute the
unlocked assignment `w.buffer = bytes.Buffer{}`; returned. -/
inductive RNPc where
  | snap | reset | ret
deriving DecidableEq, Repr

/-- One `ReadNow` call racing one `Write(out)` call on the same
`Writable`. `val` is `ReadNow`'s local snapshot; `writeDone` records
that the concurrent `Write` has appended and returned. -/
structure RNConfig where
  buf : List Nat
  rpc : RNPc
  writeDone : Bool
  val : List Nat
deriving DecidableEq, Repr

/-- Interleaving steps: `snap` and `write` are mutex-protected regions;
`reset` is the unlocked `w.buffer = bytes.Buffer{}` assignment that the
source performs after `mutex.Unlock()`. -/
inductive RNStep (out : List Nat) : RNConfig → RNConfig → Prop
  | snap (c : RNConfig) : c.rpc = .snap →
      RNStep out c { c with val := c.buf, rpc := .reset }
  | reset (c : RNConfig) : c.rpc = .reset →
      RNStep out c { c with buf := [], rpc := .ret }
  | write (c : RNConfig) : c.writeDone = false →
      RNStep out c { c with buf := (writableWrite out c.buf).2, writeDone := true }

/-- C6 fails on the code: because `ReadNow` resets the buffer only after
releasing the mutex, the legal schedule snapshot / concurrent
`Write([120])` / reset reaches, from an empty buffer, a state in which
the write has completed yet its byte 120 is neither in `ReadNow`'s
returned value nor in the buffer afterwards — the byte is lost, contrary
to the claim (and to the source's own comment that the mutex prevents
data races in `buffer`). -/
theorem readNow_reset_outside_lock_loses_write :
    Relation.ReflTransGen (RNStep [120])
      ⟨[], .snap, false, []⟩ ⟨[], .ret, true, []⟩ ∧
    (⟨[], .ret, true, []⟩ : RNConfig).writeDone = true ∧
    120 ∉ (⟨[], .ret, true, []⟩ : RNConfig).val ∧
    120 ∉ (⟨[], .ret, true, []⟩ : RNConfig).buf := by
  refine ⟨?_, rfl, by decide, by decide⟩
  have h1 : RNStep [120] ⟨[], .snap, false, []⟩ ⟨[], .reset, false, []⟩ :=
    RNStep.snap _ rfl
  have h2 : RNStep [120] ⟨[], .reset, false, []⟩ ⟨[120], .reset, true, []⟩ :=
    RNStep.write _ rfl
  have h3 : RNStep [120] ⟨[120], .reset, true, []⟩ ⟨[], .ret, true, []⟩ :=
    RNStep.reset _ rfl
  exact Relation.ReflTransGen.tail
    (Relation.ReflTransGen.tail
      (Relation.ReflTransGen.tail Relation.ReflTransGen.refl h1) h2) h3

/-! ## Interleaving model: `Writable.ReadUntil` racing concurrent writes

`Writable.Write` appends under the mutex, unlocks, then calls
`nonBlockingSignal(w.signal)` — a notification that is dropped whenever
the `ReadUntil` goroutine is not parked in its `select` at that instant
(in particular in the window between a scan's `mutex.Unlock()` and the
re-park). The timeout branch is `return val, err` with no final re-scan.
This model makes that window explicit: `ruScan` (about to run the locked
`ReadString`), `ruPre` (scan done, mutex released, not yet parked in the
`select`), `ruPark` (parked in the `select`), `ruDone` (returned). -/

/-- Program counter of the goroutine executing `Writable.ReadUntil`. -/
inductive RUPc where
  | ruScan | ruPre | ruPark | ruDone
deriving DecidableEq, Repr

/-- One `ReadUntil(delim, timeout)` call racing concurrent `Write`
calls. `val` is the accumulated return string, `err` the status that
will be returned, and `written` is ghost state: the concatenation, in
lock-acquisition order, of all bytes appended by writes so far. -/
structure RUConfig where
  rpc : RUPc
  buf : List Nat
  val : List Nat
  err : Option GoError
  written : List Nat
deriving DecidableEq, Repr

/-- `ReadUntil` about to perform its first locked `ReadString`, nothing
accumulated, buffer `buf0`. -/
def RUConfig.init (buf0 : List Nat) : RUConfig :=
  ⟨.ruScan, buf0, [], none, []⟩

/-- Interleaving steps of `ReadUntil` against concurrent writers.
`scanFound`/`scanMiss` are the locked `buffer.ReadString(delim)` (found:
return with nil error; missed: accumulate the drained bytes, keep
`io.EOF`, head for the `select`). `park` enters the `select`.
`writeDelivered` is a `Write` whose `nonBlockingSignal` finds the reader
parked: rendezvous, the reader wakes to re-scan. `writeDropped` is a
`Write` landing while the reader is NOT parked: the signal is discarded
and the bytes merely sit in the buffer. `timeoutFire` is the `select`
taking the timeout branch: it returns `val` as is — no final re-scan. -/
inductive RUStep (delim : Nat) : RUConfig → RUConfig → Prop
  | scanFound (c : RUConfig) : c.rpc = .ruScan →
      (readStringAux delim c.buf).2.2 = true →
      RUStep delim c { c with rpc := .ruDone, val := c.val ++ (readStringAux delim c.buf).1, buf := (readStringAux delim c.buf).2.1, err := none }
  | scanMiss (c : RUConfig) : c.rpc = .ruScan →
      (readStringAux delim c.buf).2.2 = false →
      RUStep delim c { c with rpc := .ruPre, val := c.val ++ (readStringAux delim c.buf).1, buf := (readStringAux delim c.buf).2.1, err := some .eof }
  | park (c : RUConfig) : c.rpc = .ruPre →
      RUStep delim c { c with rpc := .ruPark }
  | writeDropped (c : RUConfig) (a : List Nat) : c.rpc = .ruScan ∨ c.rpc = .ruPre →
      RUStep delim c { c with buf := (writableWrite a c.buf).2, written := c.written ++ a }
  | writeDelivered (c : RUConfig) (a : List Nat) : c.rpc = .ruPark →
      RUStep delim c { c with rpc := .ruScan, buf := (writableWrite a c.buf).2, written := c.written ++ a }
  | timeoutFire (c : RUConfig) : c.rpc = .ruPark →
      RUStep delim c { c with rpc := .ruDone }

theorem readStringAux_split (delim : Nat) :
    ∀ l : List Nat, (readStringAux delim l).1 ++ (readStringAux delim l).2.1 = l := by
  intro l
  induction l with
  | nil => rfl
  | cons b rest ih =>
    by_cases hb : b = delim
    · simp [readStringAux, hb]
    · simp [readStringAux, hb, ih]

theorem ruStep_preserves {delim : Nat} {buf0 : List Nat} {c c' : RUConfig}
    (hstep : RUStep delim c c') (h : c.val ++ c.buf = buf0 ++ c.written) :
    c'.val ++ c'.buf = buf0 ++ c'.written := by
  cases hstep with
  | scanFound hpc hf => simpa [List.append_assoc, readStringAux_split] using h
  | scanMiss hpc hf => simpa [List.append_assoc, readStringAux_split] using h
  | park hpc => exact h
  | writeDropped a hpc =>
    simp only [writableWrite, bufferWrite]
    rw [← List.append_assoc, h, List.append_assoc]
  | writeDelivered a hpc =>
    simp only [writableWrite, bufferWrite]
    rw [← List.append_assoc, h, List.append_assoc]
  | timeoutFire hpc => exact h

/-- C5 fails on the code: from the empty sink stream, the legal schedule
initial-scan-miss / `Write([97])` landing before the reader parks (its
`nonBlockingSignal` is dropped) / park / timeout ends with `ReadUntil`
returning the empty string with `io.EOF` while byte 97 — written before
the deadline — is absent from the returned string (it is still sitting
in the buffer): the returned string does NOT contain every byte written
before the timeout deadline. -/
theorem readUntil_timeout_drops_unsignaled_write :
    Relation.ReflTransGen (RUStep 120) (RUConfig.init [])
      ⟨.ruDone, [97], [], some .eof, [97]⟩ ∧
    (⟨.ruDone, [97], [], some .eof, [97]⟩ : RUConfig).err = some .eof ∧
    97 ∈ (⟨.ruDone, [97], [], some .eof, [97]⟩ : RUConfig).written ∧
    97 ∉ (⟨.ruDone, [97], [], some .eof, [97]⟩ : RUConfig).val ∧
    97 ∈ (⟨.ruDone, [97], [], some .eof, [97]⟩ : RUConfig).buf := by
  refine ⟨?_, rfl, by decide, by decide, by decide⟩
  have h1 : RUStep 120 (RUConfig.init []) ⟨.ruPre, [], [], some .eof, []⟩ :=
    RUStep.scanMiss _ rfl rfl
  have h2 : RUStep 120 ⟨.ruPre, [], [], some .eof, []⟩
      ⟨.ruPre, [97], [], some .eof, [97]⟩ :=
    RUStep.writeDropped _ [97] (Or.inr rfl)
  have h3 : RUStep 120 ⟨.ruPre, [97], [], some .eof, [97]⟩
      ⟨.ruPark, [97], [], some .eof, [97]⟩ :=
    RUStep.park _ rfl
  have h4 : RUStep 120 ⟨.ruPark, [97], [], some .eof, [97]⟩
      ⟨.ruDone, [97], [], some .eof, [97]⟩ :=
    RUStep.timeoutFire _ rfl
  exact Relation.ReflTransGen.tail
    (Relation.ReflTransGen.tail
      (Relation.ReflTransGen.tail
        (Relation.ReflTransGen.tail Relation.ReflTransGen.refl h1) h2) h3) h4

/-- C5 amended: in every interleaved execution of `ReadUntil` with
concurrent writers, every byte written before the eventual match or
timeout appears exactly once, in write (lock-acquisition) order, in the
returned string FOLLOWED BY the bytes remaining in the buffer: at every
reachable configuration `val ++ buf = buf0 ++ written`. No byte is
destroyed, duplicated or reordered; but a byte whose write signal was
dropped (writer signalled while the reader was not parked) and that no
later delivered wake re-scanned stays in the buffer rather than the
returned string, as the counterexample shows. -/
theorem readUntil_no_byte_destroyed :
    ∀ (delim : Nat) (buf0 : List Nat) (c : RUConfig),
      Relation.ReflTransGen (RUStep delim) (RUConfig.init buf0) c →
      c.val ++ c.buf = buf0 ++ c.written := by
  intro delim buf0 c h
  induction h with
  | refl => simp [RUConfig.init]
  | tail _ hstep ih => exact ruStep_preserves hstep ih

/-- Witness for C5 (amended) at delim = 120, buf0 = [97]: a run with a
delivered write `[98]` (rendezvous wake and re-scan), then a dropped
write `[99]` landing before the re-park, then timeout; the theorem
yields the conservation [97, 98] ++ [99] = [97] ++ [98, 99]. -/
theorem readUntil_no_byte_destroyed_witness :
    Relation.ReflTransGen (RUStep 120) (RUConfig.init [97])
      ⟨.ruDone, [99], [97, 98], some .eof, [98, 99]⟩ ∧
    (⟨.ruDone, [99], [97, 98], some .eof, [98, 99]⟩ : RUConfig).val ++
      (⟨.ruDone, [99], [97, 98], some .eof, [98, 99]⟩ : RUConfig).buf
      = [97] ++ (⟨.ruDone, [99], [97, 98], some .eof, [98, 99]⟩ : RUConfig).written := by
  have h1 : RUStep 120 (RUConfig.init [97]) ⟨.ruPre, [], [97], some .eof, []⟩ :=
    RUStep.scanMiss _ rfl rfl
  have h2 : RUStep 120 ⟨.ruPre, [], [97], some .eof, []⟩
      ⟨.ruPark, [], [97], some .eof, []⟩ :=
    RUStep.park _ rfl
  have h3 : RUStep 120 ⟨.ruPark, [], [97], some .eof, []⟩
      ⟨.ruScan, [98], [97], some .eof, [98]⟩ :=
    RUStep.writeDelivered _ [98] rfl
  have h4 : RUStep 120 ⟨.ruScan, [98], [97], some .eof, [98]⟩
      ⟨.ruPre, [], [97, 98], some .eof, [98]⟩ :=
    RUStep.scanMiss _ rfl rfl
  have h5 : RUStep 120 ⟨.ruPre, [], [97, 98], some .eof, [98]⟩
      ⟨.ruPre, [99], [97, 98], some .eof, [98, 99]⟩ :=
    RUStep.writeDropped _ [99] (Or.inr rfl)
  have h6 : RUStep 120 ⟨.ruPre, [99], [97, 98], some .eof, [98, 99]⟩
      ⟨.ruPark, [99], [97, 98], some .eof, [98, 99]⟩ :=
    RUStep.park _ rfl
  have h7 : RUStep 120 ⟨.ruPark, [99], [97, 98], some .eof, [98, 99]⟩
      ⟨.ruDone, [99], [97, 98], some .eof, [98, 99]⟩ :=
    RUStep.timeoutFire _ rfl
  have htrace : Relation.ReflTransGen (RUStep 120) (RUConfig.init [97])
      ⟨.ruDone, [99], [97, 98], some .eof, [98, 99]⟩ :=
    Relation.ReflTransGen.tail
      (Relation.ReflTransGen.tail
        (Relation.ReflTransGen.tail
          (Relation.ReflTransGen.tail
            (Relation.ReflTransGen.tail
              (Relation.ReflTransGen.tail
                (Relation.ReflTransGen.tail Relation.ReflTransGen.refl h1) h2) h3) h4) h5) h6) h7
  exact ⟨htrace, readUntil_no_byte_destroyed 120 [97] _ htrace⟩
